import Mathlib

/-!
Verification development for the blockstack-storage-js datastore client.

JavaScript values are shallowly embedded:
* byte buffers (`Buffer`) become `List Nat` (each entry a byte, `< 256`);
* JS strings, where their UTF-16 code units matter (the `escape` builtin),
  become `List Nat` of code units; elsewhere they are Lean `String`s;
* machine integers are `Nat` with explicit `% 2^32` where overflow matters;
* wall-clock reads (`new Date().getTime()`) become explicit `now` parameters;
* fallible code returns `Option` / `Except`.
-/

namespace BlockstackStorage

/-! ### SHA-256 (FIPS 180-4), the hash used by `crypto.createHash('sha256')` -/

/-- Truncate to a 32-bit word. -/
def w32 (n : Nat) : Nat := n % 4294967296

/-- Right-rotate a 32-bit word by `n` bits. -/
def rotr32 (n x : Nat) : Nat := w32 ((x >>> n) + ((x % (1 <<< n)) <<< (32 - n)))

/-- Bitwise complement of a 32-bit word. -/
def compl32 (x : Nat) : Nat := 4294967295 - w32 x

def sha256Ch (x y z : Nat) : Nat := (x &&& y) ^^^ (compl32 x &&& z)

def sha256Maj (x y z : Nat) : Nat := (x &&& y) ^^^ (x &&& z) ^^^ (y &&& z)

def bsig0 (x : Nat) : Nat := rotr32 2 x ^^^ rotr32 13 x ^^^ rotr32 22 x

def bsig1 (x : Nat) : Nat := rotr32 6 x ^^^ rotr32 11 x ^^^ rotr32 25 x

def ssig0 (x : Nat) : Nat := rotr32 7 x ^^^ rotr32 18 x ^^^ (x >>> 3)

def ssig1 (x : Nat) : Nat := rotr32 17 x ^^^ rotr32 19 x ^^^ (x >>> 10)

/-- The 64 SHA-256 round constants. -/
def sha256K : List Nat :=
  [1116352408, 1899447441, 3049323471, 3921009573, 961987163, 1508970993,
   2453635748, 2870763221, 3624381080, 310598401, 607225278, 1426881987,
   1925078388, 2162078206, 2614888103, 3248222580, 3835390401, 4022224774,
   264347078, 604807628, 770255983, 1249150122, 1555081692, 1996064986,
   2554220882, 2821834349, 2952996808, 3210313671, 3336571891, 3584528711,
   113926993, 338241895, 666307205, 773529912, 1294757372, 1396182291,
   1695183700, 1986661051, 2177026350, 2456956037, 2730485921, 2820302411,
   3259730800, 3345764771, 3516065817, 3600352804, 4094571909, 275423344,
   430227734, 506948616, 659060556, 883997877, 958139571, 1322822218,
   1537002063, 1747873779, 1955562222, 2024104815, 2227730452, 2361852424,
   2428436474, 2756734187, 3204031479, 3329325298]

/-- The initial SHA-256 state. -/
def sha256H0 : List Nat :=
  [1779033703, 3144134277, 1013904242, 2773480762,
   1359893119, 2600822924, 528734635, 1541459225]

/-- Big-endian 8-byte encoding of `n` (used for the padded bit length). -/
def be64 (n : Nat) : List Nat :=
  [w32 (n >>> 56) % 256, (n >>> 48) % 256, (n >>> 40) % 256, (n >>> 32) % 256,
   (n >>> 24) % 256, (n >>> 16) % 256, (n >>> 8) % 256, n % 256]

/-- SHA-256 message padding: append `0x80`, zeros to 56 mod 64, then the 64-bit bit length. -/
def sha256Pad (msg : List Nat) : List Nat :=
  let L := msg.length
  let zeros := (64 + 56 - ((L + 1) % 64)) % 64
  msg ++ [0x80] ++ List.replicate zeros 0 ++ be64 (8 * L)

/-- Group bytes into big-endian 32-bit words. -/
def bytesToWords : List Nat → List Nat
  | a :: b :: c :: d :: rest => (a * 16777216 + b * 65536 + c * 256 + d) :: bytesToWords rest
  | _ => []

/-- Split a byte list into 64-byte chunks (fuel-based so that it reduces structurally). -/
def chunks64Go : Nat → List Nat → List (List Nat)
  | 0, _ => []
  | _ + 1, [] => []
  | fuel + 1, l => l.take 64 :: chunks64Go fuel (l.drop 64)

def chunks64 (l : List Nat) : List (List Nat) := chunks64Go l.length l

/-- Extend the 16-word message schedule by `fuel` further words. -/
def extendWGo : Nat → List Nat → List Nat
  | 0, w => w
  | fuel + 1, w =>
      extendWGo fuel (w ++ [w32 (ssig1 (w.getD (w.length - 2) 0) + w.getD (w.length - 7) 0 +
        ssig0 (w.getD (w.length - 15) 0) + w.getD (w.length - 16) 0)])

/-- One SHA-256 round, applied to the 8-word working state; `wk` is `(Wᵢ, Kᵢ)`. -/
def sha256Round (st : List Nat) (wk : Nat × Nat) : List Nat :=
  match st with
  | [a, b, c, d, e, f, g, h] =>
      let t1 := w32 (h + bsig1 e + sha256Ch e f g + wk.2 + wk.1)
      let t2 := w32 (bsig0 a + sha256Maj a b c)
      [w32 (t1 + t2), a, b, c, w32 (d + t1), e, f, g]
  | _ => st

/-- Compress one 64-byte block into the running hash state. -/
def sha256Block (h : List Nat) (block : List Nat) : List Nat :=
  let w := extendWGo 48 (bytesToWords block)
  let st := (w.zip sha256K).foldl sha256Round h
  (h.zip st).map (fun p => w32 (p.1 + p.2))

def hexDigitChar (n : Nat) : Char := "0123456789abcdef".data.getD n '0'

/-- Lowercase hex rendering of a 32-bit word, 8 digits. -/
def hex8 (w : Nat) : List Char :=
  [hexDigitChar ((w >>> 28) % 16), hexDigitChar ((w >>> 24) % 16), hexDigitChar ((w >>> 20) % 16),
   hexDigitChar ((w >>> 16) % 16), hexDigitChar ((w >>> 12) % 16), hexDigitChar ((w >>> 8) % 16),
   hexDigitChar ((w >>> 4) % 16), hexDigitChar (w % 16)]

/-- SHA-256 of a byte list, as the lowercase-hex string `crypto`'s `digest('hex')` returns. -/
def sha256hex (msg : List Nat) : String :=
  ⟨((chunks64 (sha256Pad msg)).foldl sha256Block sha256H0).foldr (fun w acc => hex8 w ++ acc) []⟩

/-! ### Decimal printing, as JS template strings render integers -/

def digitChar (n : Nat) : Char := Char.ofNat (48 + n)

/-- Fueled decimal printer (structural recursion so that it reduces by `rfl`). -/
def natDigitsGo : Nat → Nat → List Char
  | 0, _ => []
  | fuel + 1, n => if n < 10 then [digitChar n] else natDigitsGo fuel (n / 10) ++ [digitChar (n % 10)]

/-- The decimal digits of `n`, as a JS template string `${n}` renders a whole number. -/
def natDigits (n : Nat) : List Char := natDigitsGo (n + 1) n

/-- `parseInt` on a string of decimal digits. -/
def natOfDigits (l : List Char) : Nat := l.foldl (fun a c => a * 10 + (c.toNat - 48)) 0

/-! ### blob.js `hashDataPayload` (src/src/blob.js lines 29-42)

Node's incremental hash object is modelled by the list of bytes fed to it so far:
`update` appends (strings are fed as their UTF-8 bytes — the strings used here are
pure ASCII) and `digest('hex')` hashes the accumulated bytes. -/

/-- A fresh `crypto.createHash('sha256')` context: no bytes absorbed yet. -/
def hashInit : List Nat := []

/-- `hash.update(bytes)`: absorb more bytes. -/
def hashUpdate (ctx : List Nat) (bytes : List Nat) : List Nat := ctx ++ bytes

/-- `hash.digest('hex')`: SHA-256 of everything absorbed. -/
def hashDigestHex (ctx : List Nat) : String := sha256hex ctx

/-- The ASCII bytes of the decimal rendering of `n`. -/
def decimalBytes (n : Nat) : List Nat := (natDigits n).map Char.toNat

/-- `hashDataPayload(payload_buffer)` from src/src/blob.js: feed `` `${len}:` ``,
then the payload bytes, then `','` into a fresh sha256, and render the digest in hex. -/
def hashDataPayload (payload_buffer : List Nat) : String :=
  hashDigestHex (hashUpdate (hashUpdate (hashUpdate hashInit (decimalBytes payload_buffer.length ++ [58])) payload_buffer) [44])

/-- C1: for every byte buffer `b`, `hashDataPayload(b)` equals the hex-encoded
SHA-256 of the concatenation of the ASCII decimal byte-length of `b`, a `':'`
character (byte 58), the bytes of `b`, and a trailing `','` character (byte 44). -/
theorem hashDataPayload_eq_sha256_of_framing (b : List Nat) :
    hashDataPayload b = sha256hex (decimalBytes b.length ++ [58] ++ b ++ [44]) := by
  simp [hashDataPayload, hashDigestHex, hashUpdate, hashInit, List.append_assoc]

/-! ### Decimal printer correctness -/

theorem natOfDigits_append_singleton (l : List Char) (c : Char) :
    natOfDigits (l ++ [c]) = natOfDigits l * 10 + (c.toNat - 48) := by
  simp [natOfDigits, List.foldl_append]

theorem digitChar_spec {n : Nat} (h : n < 10) :
    (digitChar n).isDigit = true ∧ (digitChar n).toNat = 48 + n := by
  interval_cases n <;> exact ⟨by decide, by decide⟩

theorem natDigitsGo_spec :
    ∀ fuel n, n < fuel →
      natOfDigits (natDigitsGo fuel n) = n ∧ natDigitsGo fuel n ≠ [] ∧
        ∀ c ∈ natDigitsGo fuel n, c.isDigit = true := by
  intro fuel
  induction fuel with
  | zero => intro n hn; omega
  | succ f ih =>
      intro n hn
      by_cases h : n < 10
      · obtain ⟨hd, ht⟩ := digitChar_spec h
        refine ⟨?_, by simp [natDigitsGo, h], ?_⟩
        · simp [natDigitsGo, h, natOfDigits, ht]
        · simpa [natDigitsGo, h] using hd
      · have hdiv : n / 10 < f := by
          have h1 : n / 10 < n := Nat.div_lt_self (by omega) (by omega)
          omega
        obtain ⟨h1, h2, h3⟩ := ih (n / 10) hdiv
        obtain ⟨hd, ht⟩ := digitChar_spec (Nat.mod_lt n (show 0 < 10 by omega))
        have hgo : natDigitsGo (f + 1) n = natDigitsGo f (n / 10) ++ [digitChar (n % 10)] := by
          simp [natDigitsGo, h]
        refine ⟨?_, by simp [hgo], ?_⟩
        · rw [hgo, natOfDigits_append_singleton, h1, ht]
          omega
        · intro c hc
          rw [hgo] at hc
          rcases List.mem_append.mp hc with hc | hc
          · exact h3 c hc
          · simpa [List.mem_singleton.mp hc] using hd

theorem natOfDigits_natDigits (n : Nat) : natOfDigits (natDigits n) = n :=
  (natDigitsGo_spec (n + 1) n (Nat.lt_succ_self n)).1

theorem natDigits_ne_nil (n : Nat) : natDigits n ≠ [] :=
  (natDigitsGo_spec (n + 1) n (Nat.lt_succ_self n)).2.1

theorem natDigits_all_digit (n : Nat) : ∀ c ∈ natDigits n, c.isDigit = true :=
  (natDigitsGo_spec (n + 1) n (Nat.lt_succ_self n)).2.2

/-! ### Tombstones (src/src/blob.js lines 139-142 and 204-215)

`makeDataTombstone` reads the wall clock; the read is the explicit `now` parameter
(milliseconds).  `parseDataTombstone` matches the tombstone against
`OP_TOMBSTONE_PATTERN`, which is referenced from the schema module but absent
from the sources; the matcher below is modelled from the spec. -/

/-- `makeDataTombstone(tombstone_payload)`: the string
`` `delete-${now}:${tombstone_payload}` `` where `now` is the wall-clock read. -/
def makeDataTombstone (now : Nat) (tombstone_payload : String) : String :=
  ⟨"delete-".data ++ natDigits now ++ ':' :: tombstone_payload.data⟩

/-- The parsed form of a tombstone: its millisecond timestamp and its data ID. -/
structure TombstoneInfo where
  timestamp : Nat
  id : String
  deriving Repr, DecidableEq

/-- Strip an expected prefix from a character list, or fail. -/
def stripPrefixCh : List Char → List Char → Option (List Char)
  | [], cs => some cs
  | _ :: _, [] => none
  | p :: ps, c :: cs => if c = p then stripPrefixCh ps cs else none

/-- Modelled from the spec: `OP_TOMBSTONE_PATTERN` (absent from the sources; only its
uses survive) matches `"delete-" <decimal digits> ":" <rest>`, capturing the digits
(group 1, the timestamp) and the rest of the string (group 2, the data ID).  This
matcher applies it: on success it yields `parseInt(group 1)` and group 2. -/
def parseTombChars (cs : List Char) : Option (Nat × List Char) :=
  match stripPrefixCh "delete-".data cs with
  | none => none
  | some rest =>
      match rest.dropWhile Char.isDigit with
      | ':' :: idcs =>
          if rest.takeWhile Char.isDigit = [] then none
          else some (natOfDigits (rest.takeWhile Char.isDigit), idcs)
      | _ => none

/-- `parseDataTombstone(tombstone)`: the match result as `{timestamp, id}`,
or the null sentinel (`none`) when the pattern does not match. -/
def parseDataTombstone (tombstone : String) : Option TombstoneInfo :=
  match parseTombChars tombstone.data with
  | none => none
  | some (ts, idcs) => some ⟨ts, ⟨idcs⟩⟩

/-- The shape `OP_TOMBSTONE_PATTERN` accepts: a `delete-` prefix, a nonempty run of
decimal digits, a colon, then an arbitrary remainder. -/
def TombstoneShape (cs : List Char) : Prop :=
  ∃ ds rest, ds ≠ [] ∧ (∀ c ∈ ds, c.isDigit = true) ∧ cs = "delete-".data ++ ds ++ ':' :: rest

theorem stripPrefixCh_append (p r : List Char) : stripPrefixCh p (p ++ r) = some r := by
  induction p with
  | nil => rfl
  | cons c cs ih => simp [stripPrefixCh, ih]

theorem stripPrefixCh_eq_some {p cs r : List Char} (h : stripPrefixCh p cs = some r) :
    cs = p ++ r := by
  induction p generalizing cs with
  | nil =>
      have h' : cs = r := by simpa [stripPrefixCh] using h
      simp [h']
  | cons x xs ih =>
      match cs with
      | [] => simp [stripPrefixCh] at h
      | c :: cs' =>
          by_cases hc : c = x
          · simp only [stripPrefixCh, if_pos hc] at h
            simp [hc, ih h]
          · simp [stripPrefixCh, hc] at h

theorem takeWhile_all_append {p : Char → Bool} {l : List Char} (x : Char) (r : List Char)
    (hall : ∀ c ∈ l, p c = true) (hx : p x = false) :
    (l ++ x :: r).takeWhile p = l ∧ (l ++ x :: r).dropWhile p = x :: r := by
  induction l with
  | nil => simp [List.takeWhile, List.dropWhile, hx]
  | cons c cs ih =>
      have hc : p c = true := hall c (List.mem_cons_self c cs)
      have hrest : ∀ c' ∈ cs, p c' = true := fun c' h' => hall c' (List.mem_cons_of_mem c h')
      obtain ⟨h1, h2⟩ := ih hrest
      simp [List.takeWhile, List.dropWhile, hc, h1, h2]

theorem parseTombChars_shape (ds rest : List Char) (hne : ds ≠ [])
    (hall : ∀ c ∈ ds, c.isDigit = true) :
    parseTombChars ("delete-".data ++ ds ++ ':' :: rest) = some (natOfDigits ds, rest) := by
  obtain ⟨htake, hdrop⟩ := takeWhile_all_append (p := Char.isDigit) ':' rest hall (by decide)
  unfold parseTombChars
  rw [List.append_assoc, stripPrefixCh_append]
  simp only [htake, hdrop]
  rw [if_neg hne]

/-- C3: the tombstone round trip.  Parsing `makeDataTombstone(id)` yields exactly the
wall-clock timestamp of the call and the payload `id`; and `parseDataTombstone`
(a total function — it never raises) returns the null sentinel precisely on inputs
that do not match the tombstone shape. -/
theorem parseDataTombstone_roundtrip_and_null :
    (∀ (now : Nat) (id : String),
        parseDataTombstone (makeDataTombstone now id) = some ⟨now, id⟩)
    ∧ (∀ s : String, parseDataTombstone s = none ↔ ¬ TombstoneShape s.data) := by
  constructor
  · intro now id
    rw [parseDataTombstone, makeDataTombstone]
    show (match parseTombChars ("delete-".data ++ natDigits now ++ ':' :: id.data) with
      | none => none
      | some (ts, idcs) => some (TombstoneInfo.mk ts (String.mk idcs))) =
        some (TombstoneInfo.mk now id)
    rw [parseTombChars_shape _ _ (natDigits_ne_nil now) (natDigits_all_digit now),
      natOfDigits_natDigits]
  · intro s
    constructor
    · intro hnone hshape
      obtain ⟨ds, rest, hne, hall, hs⟩ := hshape
      rw [parseDataTombstone, hs, parseTombChars_shape ds rest hne hall] at hnone
      exact Option.noConfusion hnone
    · intro hshape
      rw [parseDataTombstone]
      cases hstrip : stripPrefixCh "delete-".data s.data with
      | none => simp [parseTombChars, hstrip]
      | some rest =>
          simp only [parseTombChars, hstrip]
          cases hdrop : rest.dropWhile Char.isDigit with
          | nil => simp
          | cons x idcs =>
              by_cases hx : x = ':'
              · subst hx
                by_cases hemp : rest.takeWhile Char.isDigit = []
                · simp [hemp]
                · exfalso
                  apply hshape
                  have hrest : rest = rest.takeWhile Char.isDigit ++ ':' :: idcs := by
                    conv_lhs => rw [← List.takeWhile_append_dropWhile (p := Char.isDigit) (l := rest)]
                    rw [hdrop]
                  refine ⟨rest.takeWhile Char.isDigit, idcs, hemp, ?_, ?_⟩
                  · intro c hc
                    exact List.mem_takeWhile_imp hc
                  · rw [List.append_assoc]
                    rw [stripPrefixCh_eq_some hstrip]
                    conv_lhs => rw [hrest]
              · cases x
                simp_all

/-! ### `makeFullyQualifiedDataId` (src/unnamed/part_000 lines 161-163)

JS strings are sequences of UTF-16 code units; the `escape` builtin and
`String.prototype.replace` act on them, so here they become `List Nat`. -/

/-- The UTF-16 code units of one character (astral code points become a surrogate pair). -/
def charUtf16 (c : Char) : List Nat :=
  if c.toNat < 65536 then [c.toNat]
  else [55296 + (c.toNat - 65536) / 1024, 56320 + (c.toNat - 65536) % 1024]

/-- The UTF-16 code units of a string, as a JS engine stores it. -/
def utf16Units (s : String) : List Nat := (s.data.map charUtf16).flatten

/-- Does the JS `escape` builtin pass this code unit through unchanged?
The unescaped set is the letters, the digits, and `@*_+-./`. -/
def escapePass (u : Nat) : Bool :=
  (65 ≤ u && u ≤ 90) || (97 ≤ u && u ≤ 122) || (48 ≤ u && u ≤ 57) ||
    u == 64 || u == 42 || u == 95 || u == 43 || u == 45 || u == 46 || u == 47

def hexDigitCharUpper (n : Nat) : Char := "0123456789ABCDEF".data.getD n '0'

/-- `escape` on one code unit: pass through, `%XX`, or `%uXXXX` (uppercase hex). -/
def escapeUnit (u : Nat) : List Char :=
  if escapePass u then [Char.ofNat u]
  else if u < 256 then ['%', hexDigitCharUpper (u / 16 % 16), hexDigitCharUpper (u % 16)]
  else ['%', 'u', hexDigitCharUpper (u / 4096 % 16), hexDigitCharUpper (u / 256 % 16),
        hexDigitCharUpper (u / 16 % 16), hexDigitCharUpper (u % 16)]

/-- The JS `escape` builtin over a code-unit sequence. -/
def jsEscape (units : List Nat) : String := ⟨(units.map escapeUnit).flatten⟩

/-- `'str'.replace(search, r)` with a one-character string search value:
only the FIRST occurrence of the unit `t` is replaced. -/
def replaceFirstUnit : List Nat → Nat → List Nat → List Nat
  | [], _, _ => []
  | x :: xs, t, r => if x = t then r ++ xs else x :: replaceFirstUnit xs t r

/-- The four code units of the JS string literal `'\\x2f'`: backslash, `x`, `2`, `f`. -/
def backslashX2f : List Nat := [92, 120, 50, 102]

/-- `makeFullyQualifiedDataId(device_id, data_id)` from src/unnamed/part_000:
`` escape(`${device_id}:${data_id}`.replace('/', '\\x2f')) ``. -/
def makeFullyQualifiedDataId (device_id data_id : String) : String :=
  jsEscape (replaceFirstUnit (utf16Units (device_id ++ ":" ++ data_id)) 47 backslashX2f)

/-- All occurrences of the unit `t` replaced by `r`. -/
def replaceAllUnit (units : List Nat) (t : Nat) (r : List Nat) : List Nat :=
  (units.map (fun u => if u = t then r else [u])).flatten

/-- The claim's reading of `makeFullyQualifiedDataId` (for refinement comparison only):
replace EVERY `/` in `data_id` by the literal `\x2f`, then percent-encode the whole
`device_id:data_id` string. -/
def claimMakeFullyQualifiedDataId (device_id data_id : String) : String :=
  jsEscape (utf16Units device_id ++ 58 :: replaceAllUnit (utf16Units data_id) 47 backslashX2f)

/-- C4 counterexample: with `data_id = "a/b/c"` the code replaces only the FIRST
slash (`String.replace` with a string pattern), so the result differs from the
claimed replace-every-occurrence encoding. -/
theorem makeFullyQualifiedDataId_counterexample :
    makeFullyQualifiedDataId "d" "a/b/c" = "d%3Aa%5Cx2fb/c" ∧
    claimMakeFullyQualifiedDataId "d" "a/b/c" = "d%3Aa%5Cx2fb%5Cx2fc" ∧
    makeFullyQualifiedDataId "d" "a/b/c" ≠ claimMakeFullyQualifiedDataId "d" "a/b/c" := by
  refine ⟨rfl, rfl, ?_⟩
  decide

theorem utf16Units_append (s t : String) : utf16Units (s ++ t) = utf16Units s ++ utf16Units t := by
  have h : (s ++ t).data = s.data ++ t.data := String.data_append s t
  simp [utf16Units, h]

theorem replaceFirstUnit_append_of_not_mem {l₁ : List Nat} (l₂ : List Nat) (t : Nat)
    (r : List Nat) (hl : t ∉ l₁) (hx : (58 : Nat) ≠ t) :
    replaceFirstUnit (l₁ ++ 58 :: l₂) t r = l₁ ++ 58 :: replaceFirstUnit l₂ t r := by
  induction l₁ with
  | nil => simp [replaceFirstUnit, hx]
  | cons x xs ih =>
      have hxne : x ≠ t := fun h => hl (h ▸ List.mem_cons_self x xs)
      have hrec := ih (fun h => hl (List.mem_cons_of_mem x h))
      simp [replaceFirstUnit, hxne, hrec]

/-- C4 amended: `makeFullyQualifiedDataId` percent-encodes `device_id:data_id` with
`escape` semantics after replacing only the FIRST `/` of the combined string by the
literal `\x2f`; when `device_id` itself contains no `/`, that first slash is the
first slash of `data_id`. -/
theorem makeFullyQualifiedDataId_amended (device_id data_id : String)
    (h : (47 : Nat) ∉ utf16Units device_id) :
    makeFullyQualifiedDataId device_id data_id =
      jsEscape (utf16Units device_id ++ 58 :: replaceFirstUnit (utf16Units data_id) 47 backslashX2f) := by
  have hsplit : utf16Units (device_id ++ ":" ++ data_id) =
      utf16Units device_id ++ 58 :: utf16Units data_id := by
    rw [utf16Units_append, utf16Units_append]
    have hcolon : utf16Units ":" = [58] := rfl
    simp [hcolon]
  rw [makeFullyQualifiedDataId, hsplit,
    replaceFirstUnit_append_of_not_mem _ _ _ h (by decide)]

/-- Witness for the C4 amended theorem at `device_id = "dev"`, `data_id = "a/b"`. -/
theorem makeFullyQualifiedDataId_amended_witness :
    makeFullyQualifiedDataId "dev" "a/b" =
      jsEscape (utf16Units "dev" ++ 58 :: replaceFirstUnit (utf16Units "a/b") 47 backslashX2f) :=
  makeFullyQualifiedDataId_amended "dev" "a/b" (by decide)

/-! ### Device root pages (src/unnamed/part_001)

`deviceRootInsert` / `deviceRootRemove` assign into the `device_root` object the
caller passed (`device_root['timestamp'] = …`, `device_root['files'][name] = …`),
so the embedding returns the post-call value of that object alongside the JS
return value.  The two `new Date().getTime()` reads (one in the edit function, one
inside `makeDataInfo`) are the explicit parameters `now₁` and `now₂`. -/

/-- A `files` entry of a device root (shape produced by `makeFileEntry`). -/
structure FileEntry where
  proto_version : Nat
  urls : List String
  data_hash : String
  timestamp : Nat
  deriving Repr, DecidableEq

/-- A device root directory page (shape produced by `makeEmptyDeviceRootDirectory`).
`files` and `tombstones` are JS objects: insertion-ordered key/value lists. -/
structure DeviceRoot where
  proto_version : Nat
  rtype : Nat
  owner : String
  readers : List String
  timestamp : Nat
  files : List (String × FileEntry)
  tombstones : List (String × String)
  deriving Repr, DecidableEq

/-- JS object assignment `obj[k] = v`: update in place if the key exists, else append. -/
def objInsert {α : Type} (k : String) (v : α) : List (String × α) → List (String × α)
  | [] => [(k, v)]
  | (k', v') :: rest => if k' = k then (k, v) :: rest else (k', v') :: objInsert k v rest

/-- The mutable-data envelope produced by `makeDataInfo` (src/src/blob.js lines 114-129). -/
structure DataInfo where
  fq_data_id : String
  data : String
  version : Nat
  timestamp : Nat
  deriving Repr, DecidableEq

/-- `makeDataInfo(data_id, data_payload, device_id, fq_data_id)`: the envelope with
`version = 1` and the wall-clock timestamp (`now`).  A missing or empty (falsy)
`fq_data_id` is recomputed from the device and data IDs. -/
def makeDataInfo (now : Nat) (data_id : String) (data_payload : String) (device_id : String)
    (fq_data_id : Option String) : DataInfo :=
  { fq_data_id :=
      match fq_data_id with
      | some f => if f = "" then makeFullyQualifiedDataId device_id data_id else f
      | none => makeFullyQualifiedDataId device_id data_id
    data := data_payload
    version := 1
    timestamp := now }

def jsonEscapeChar (c : Char) : List Char :=
  if c = '"' then ['\\', '"'] else if c = '\\' then ['\\', '\\'] else [c]

def jsonStr (s : String) : String := "\"" ++ ⟨(s.data.map jsonEscapeChar).flatten⟩ ++ "\""

def jsonNat (n : Nat) : String := ⟨natDigits n⟩

def jsonStrList (l : List String) : String :=
  "[" ++ String.intercalate "," (l.map jsonStr) ++ "]"

/-- Render a JSON object from an insertion-ordered field list. -/
def jsonObj (fields : List (String × String)) : String :=
  "\x7b" ++ String.intercalate "," (fields.map (fun kv => jsonStr kv.1 ++ ":" ++ kv.2)) ++ "\x7d"

def jsonFileEntry (e : FileEntry) : String :=
  jsonObj [("proto_version", jsonNat e.proto_version), ("urls", jsonStrList e.urls),
           ("data_hash", jsonStr e.data_hash), ("timestamp", jsonNat e.timestamp)]

/-- `JSON.stringify(device_root)`, modelled for this shape: insertion-order keys
(no claim depends on this rendering; control-character escapes are not produced
by the shapes involved). -/
def jsonStringifyDeviceRoot (r : DeviceRoot) : String :=
  jsonObj [("proto_version", jsonNat r.proto_version), ("type", jsonNat r.rtype),
           ("owner", jsonStr r.owner), ("readers", jsonStrList r.readers),
           ("timestamp", jsonNat r.timestamp),
           ("files", jsonObj (r.files.map (fun kv => (kv.1, jsonFileEntry kv.2)))),
           ("tombstones", jsonObj (r.tombstones.map (fun kv => (kv.1, jsonStr kv.2))))]

/-- `deviceRootSerialize(device_id, datastore_id, root_uuid, device_root)`:
the mutable-data envelope over `data_id = datastore_id "." root_uuid`. -/
def deviceRootSerialize (now : Nat) (device_id datastore_id root_uuid : String)
    (device_root : DeviceRoot) : DataInfo :=
  let data_id := datastore_id ++ "." ++ root_uuid
  let device_root_data_id := makeFullyQualifiedDataId device_id data_id
  makeDataInfo now data_id (jsonStringifyDeviceRoot device_root) device_id (some device_root_data_id)

/-- The JS return value of `deviceRootInsert`. -/
structure InsertResult where
  device_root_blob : DataInfo
  timestamp : Nat
  deriving Repr, DecidableEq

/-- `deviceRootInsert(datastore_id, root_uuid, device_root, file_name, file_entry, device_id)`.
First component: the post-call value of the caller's `device_root` (the function assigns
into it); second: the returned `{device_root_blob, timestamp}`. -/
def deviceRootInsert (now₁ now₂ : Nat) (datastore_id root_uuid : String)
    (device_root : DeviceRoot) (file_name : String) (file_entry : FileEntry)
    (device_id : String) : DeviceRoot × InsertResult :=
  let new_timestamp := if device_root.timestamp + 1 > now₁ then device_root.timestamp + 1 else now₁
  let root' := { device_root with
    timestamp := new_timestamp
    files := objInsert file_name file_entry device_root.files }
  (root', { device_root_blob := deviceRootSerialize now₂ device_id datastore_id root_uuid root'
            timestamp := new_timestamp })

/-- `deviceRootRemove(datastore_id, root_uuid, device_root, file_name, file_tombstone, device_id)`.
First component: the post-call value of the caller's `device_root`; second: the returned
serialized root page. -/
def deviceRootRemove (now₁ now₂ : Nat) (datastore_id root_uuid : String)
    (device_root : DeviceRoot) (file_name : String) (file_tombstone : String)
    (device_id : String) : DeviceRoot × DataInfo :=
  let new_timestamp := if device_root.timestamp + 1 > now₁ then device_root.timestamp + 1 else now₁
  let root' := { device_root with
    timestamp := new_timestamp
    tombstones := objInsert file_name file_tombstone device_root.tombstones }
  (root', deviceRootSerialize now₂ device_id datastore_id root_uuid root')

/-- C5 counterexample: `deviceRootInsert` is NOT pure — at a concrete root with
timestamp 5 (and `now = 0`), the caller's root object is changed by the call
(its timestamp becomes 6). -/
theorem deviceRootInsert_mutates_counterexample :
    (deviceRootInsert 0 0 "ds" "u"
        ⟨2, 1, "o", [], 5, [], []⟩ "f" ⟨2, [], "h", 0⟩ "dev").1 ≠
      (⟨2, 1, "o", [], 5, [], []⟩ : DeviceRoot) ∧
    (deviceRootInsert 0 0 "ds" "u"
        ⟨2, 1, "o", [], 5, [], []⟩ "f" ⟨2, [], "h", 0⟩ "dev").1.timestamp = 6 ∧
    (⟨2, 1, "o", [], 5, [], []⟩ : DeviceRoot).timestamp = 5 := by
  refine ⟨?_, rfl, rfl⟩
  intro h
  exact absurd (congrArg DeviceRoot.timestamp h) (by decide)

/-- C5 amended: `deviceRootInsert` mutates the caller's root in place — after the
call the object carries `files[name] = entry` and `timestamp = max(now, old+1)`
(all other fields unchanged), so it is NOT left unchanged; the JS return value is
`{device_root_blob: serialized mutated root, timestamp: new timestamp}`. -/
theorem deviceRootInsert_amended (now₁ now₂ : Nat) (ds ru : String) (root : DeviceRoot)
    (n : String) (e : FileEntry) (dev : String) :
    (deviceRootInsert now₁ now₂ ds ru root n e dev).1.files = objInsert n e root.files ∧
    (deviceRootInsert now₁ now₂ ds ru root n e dev).1.timestamp = max now₁ (root.timestamp + 1) ∧
    (deviceRootInsert now₁ now₂ ds ru root n e dev).1.tombstones = root.tombstones ∧
    (deviceRootInsert now₁ now₂ ds ru root n e dev).1.owner = root.owner ∧
    (deviceRootInsert now₁ now₂ ds ru root n e dev).2 =
      ⟨deviceRootSerialize now₂ dev ds ru (deviceRootInsert now₁ now₂ ds ru root n e dev).1,
        (deviceRootInsert now₁ now₂ ds ru root n e dev).1.timestamp⟩ ∧
    (deviceRootInsert now₁ now₂ ds ru root n e dev).1 ≠ root := by
  have hmax : (if root.timestamp + 1 > now₁ then root.timestamp + 1 else now₁) =
      max now₁ (root.timestamp + 1) := by
    split <;> omega
  refine ⟨rfl, by simp [deviceRootInsert, hmax], rfl, rfl, by simp [deviceRootInsert], ?_⟩
  intro h
  have ht := congrArg DeviceRoot.timestamp h
  simp [deviceRootInsert, hmax] at ht
  omega

/-- C6: an edit (`deviceRootInsert` or `deviceRootRemove`) advances the root
timestamp to exactly `max(now_ms, old+1)` — strictly greater than the old
timestamp and at least the wall clock at the call — both in the mutated root
object and in the returned timestamp, so consecutive edits by one device produce
strictly increasing timestamps. -/
theorem deviceRoot_edit_timestamp_monotonic (now₁ now₂ : Nat) (ds ru : String)
    (root : DeviceRoot) (n : String) (e : FileEntry) (t : String) (dev : String) :
    ((deviceRootInsert now₁ now₂ ds ru root n e dev).1.timestamp = max now₁ (root.timestamp + 1) ∧
      (deviceRootInsert now₁ now₂ ds ru root n e dev).2.timestamp = max now₁ (root.timestamp + 1) ∧
      root.timestamp < (deviceRootInsert now₁ now₂ ds ru root n e dev).1.timestamp ∧
      now₁ ≤ (deviceRootInsert now₁ now₂ ds ru root n e dev).1.timestamp) ∧
    ((deviceRootRemove now₁ now₂ ds ru root n t dev).1.timestamp = max now₁ (root.timestamp + 1) ∧
      root.timestamp < (deviceRootRemove now₁ now₂ ds ru root n t dev).1.timestamp ∧
      now₁ ≤ (deviceRootRemove now₁ now₂ ds ru root n t dev).1.timestamp) := by
  have hmax : (if root.timestamp + 1 > now₁ then root.timestamp + 1 else now₁) =
      max now₁ (root.timestamp + 1) := by
    split <;> omega
  refine ⟨⟨?_, ?_, ?_, ?_⟩, ⟨?_, ?_, ?_⟩⟩ <;>
    simp [deviceRootInsert, deviceRootRemove, hmax]

/-! ### `httpRequest` response dispatch (src/src/requests.js lines 64-111)

The `fetch` response is external input; its observable fields are a structure.
A thrown JS exception is `Except.error`.  The success branches (JSON parse +
ajv validation, or plain text) are external collaborators and are carried as
constructors holding the raw body. -/

/-- The inbound HTTP response, as `httpRequest`'s `.then` callback observes it. -/
structure HttpResponse where
  status : Nat
  statusText : String
  contentType : Option String
  body : String
  deriving Repr, DecidableEq

/-- What `httpRequest` resolves to (when it does not throw). -/
inductive HttpOutcome where
  | errObject (error : String) (errno : String)
  | jsonValidated (body : String)
  | textBody (body : String)
  deriving Repr, DecidableEq

/-- The status dispatch of `httpRequest`: statuses ≥ 500 throw, 404/403/401/400 map to
`{error, errno}` objects, anything else resolves to the (validated) body. -/
def httpRequestDispatch (response : HttpResponse) : Except String HttpOutcome :=
  if response.status ≥ 500 then Except.error response.statusText
  else if response.status = 404 then Except.ok (.errObject "No such file or directory" "ENOENT")
  else if response.status = 403 then Except.ok (.errObject "Access denied" "EACCES")
  else if response.status = 401 then Except.ok (.errObject "Invalid request" "EINVAL")
  else if response.status = 400 then Except.ok (.errObject "Operation not permitted" "EPERM")
  else if response.contentType = some "application/json" then Except.ok (.jsonValidated response.body)
  else Except.ok (.textBody response.body)

/-- C8: `httpRequest` maps status 400 to an `{error, errno}` object with errno `EPERM`,
401 to `EINVAL`, 403 to `EACCES`, 404 to `ENOENT`, and throws for every status ≥ 500. -/
theorem httpRequest_status_error_mapping :
    (∀ r : HttpResponse, r.status = 400 →
        httpRequestDispatch r = Except.ok (.errObject "Operation not permitted" "EPERM"))
    ∧ (∀ r : HttpResponse, r.status = 401 →
        httpRequestDispatch r = Except.ok (.errObject "Invalid request" "EINVAL"))
    ∧ (∀ r : HttpResponse, r.status = 403 →
        httpRequestDispatch r = Except.ok (.errObject "Access denied" "EACCES"))
    ∧ (∀ r : HttpResponse, r.status = 404 →
        httpRequestDispatch r = Except.ok (.errObject "No such file or directory" "ENOENT"))
    ∧ (∀ r : HttpResponse, 500 ≤ r.status → httpRequestDispatch r = Except.error r.statusText) := by
  refine ⟨?_, ?_, ?_, ?_, ?_⟩ <;> intro r h <;> simp [httpRequestDispatch, h]

/-- Witness for C8 at concrete responses with statuses 400, 401, 403, 404 and 500. -/
theorem httpRequest_status_error_mapping_witness :
    httpRequestDispatch ⟨400, "t", none, ""⟩ =
        Except.ok (.errObject "Operation not permitted" "EPERM") ∧
    httpRequestDispatch ⟨401, "t", none, ""⟩ =
        Except.ok (.errObject "Invalid request" "EINVAL") ∧
    httpRequestDispatch ⟨403, "t", none, ""⟩ =
        Except.ok (.errObject "Access denied" "EACCES") ∧
    httpRequestDispatch ⟨404, "t", none, ""⟩ =
        Except.ok (.errObject "No such file or directory" "ENOENT") ∧
    httpRequestDispatch ⟨502, "bad gateway", none, ""⟩ = Except.error "bad gateway" :=
  ⟨httpRequest_status_error_mapping.1 _ rfl,
   httpRequest_status_error_mapping.2.1 _ rfl,
   httpRequest_status_error_mapping.2.2.1 _ rfl,
   httpRequest_status_error_mapping.2.2.2.1 _ rfl,
   httpRequest_status_error_mapping.2.2.2.2 _ (by decide)⟩

/-! ### Device-root version cache (src/src/metadata.js lines 218-237) and the
`expect_device_root` computation of `findDeviceRootInfo` (src/src/api.js lines 588-601) -/

set_option linter.unusedVariables false in
/-- `getDeviceRootVersion(datastore_id, root_uuid, device_ids)`: the body is `return 0`
(a TODO stub) — it consults nothing. -/
def getDeviceRootVersion (datastore_id root_uuid : String) (device_ids : List String) : Nat := 0

set_option linter.unusedVariables false in
/-- `putDeviceRootVersion(datastore_id, root_uuid, device_id, version)`: the body is
`return true` (a TODO stub) — it records nothing. -/
def putDeviceRootVersion (datastore_id root_uuid device_id : String) (version : Nat) : Bool :=
  true

/-- The `expect_device_root` computation of `findDeviceRootInfo`:
start false; set true when `decompressPublicKey(datastore.pubkey) ===
decompressPublicKey(data_pubkey)`; set true when the cached root version is > 0.
`decompressPublicKey` is an external library function, taken as a parameter. -/
def findDeviceRootInfoExpectRoot (decompressPublicKey : String → String)
    (datastore_pubkey data_pubkey datastore_id root_uuid this_device_id : String) : Bool :=
  let expect₀ := false
  let expect₁ :=
    if decompressPublicKey datastore_pubkey = decompressPublicKey data_pubkey then true
    else expect₀
  let root_version := getDeviceRootVersion datastore_id root_uuid [this_device_id]
  if root_version > 0 then true else expect₁

/-- C10: `getDeviceRootVersion` always returns 0 and `putDeviceRootVersion` always
returns true (recording nothing), so the previously-observed-version branch of
`findDeviceRootInfo` never fires: a device root is expected exactly when this
device's (decompressed) public key equals the datastore descriptor's. -/
theorem deviceRootVersion_stubs_and_expectRoot :
    (∀ a b c, getDeviceRootVersion a b c = 0)
    ∧ (∀ a b c v, putDeviceRootVersion a b c v = true)
    ∧ (∀ (decompress : String → String) (p q i u d : String),
        findDeviceRootInfoExpectRoot decompress p q i u d = true ↔ decompress p = decompress q) := by
  refine ⟨fun _ _ _ => rfl, fun _ _ _ _ => rfl, ?_⟩
  intro decompress p q i u d
  simp [findDeviceRootInfoExpectRoot, getDeviceRootVersion]

/-! ### Replication policy: `selectDrivers` (src/unnamed/part_002 lines 358-469)

A replication strategy is a JS object mapping concern names to counts;
`Object.keys` iterates its keys in insertion order, and keys are unique, so a
strategy becomes an insertion-ordered association list over the four concern
names.  The driver classification `classes` is the session's object mapping
storage-class names to driver-name lists. -/

/-- The four concern names that index `REPLICATION_STRATEGY_CLASSES`:
`'local'`, `'publish'`, `'public'`, `'private'`. -/
inductive Concern where
  | loc
  | publish
  | pub
  | priv
  deriving Repr, DecidableEq

def SUPPORTED_STORAGE_CLASSES : List String :=
  ["read_public", "write_public", "read_private", "write_private", "read_local", "write_local"]

/-- `REPLICATION_STRATEGY_CLASSES`: the class set each concern binds to. -/
def REPLICATION_STRATEGY_CLASSES : Concern → List String
  | .loc => ["read_local", "write_local"]
  | .publish => ["read_public", "write_private"]
  | .pub => ["read_public", "write_public"]
  | .priv => ["read_private", "write_private"]

/-- `classes[cls]` — the driver list a classification names for a storage class
(missing key ⇒ `new Set(undefined)` ⇒ empty). -/
def classDrivers (classes : List (String × List String)) (cls : String) : List String :=
  (classes.lookup cls).getD []

/-- `new Set(list)` iterated in insertion order: first-occurrence deduplication. -/
def jsSet (l : List String) : List String :=
  l.foldl (fun acc x => if acc.contains x then acc else acc ++ [x]) []

/-- `all_drivers`: every driver named by any supported class, deduplicated in the
order first encountered (iterated `Set.add` over the per-class sets). -/
def allDriversOf (classes : List (String × List String)) : List String :=
  jsSet ((SUPPORTED_STORAGE_CLASSES.map (fun cls => jsSet (classDrivers classes cls))).flatten)

/-- `driver_classes[d]`: the storage classes driver `d` implements, in
`SUPPORTED_STORAGE_CLASSES` order. -/
def driverClassesOf (classes : List (String × List String)) (d : String) : List String :=
  SUPPORTED_STORAGE_CLASSES.filter (fun cls => (jsSet (classDrivers classes cls)).contains d)

/-- A driver matches a concern when one of its classes is in the concern's class set. -/
def driverMatches (classes : List (String × List String)) (d : String) (c : Concern) : Bool :=
  (driverClassesOf classes d).any (fun dcl => (REPLICATION_STRATEGY_CLASSES c).contains dcl)

/-- The loop state: `concern_fulfillment` and `selected_drivers`. -/
structure SelState where
  fulfill : Concern → Nat
  selected : List String

/-- The strategy-fulfilled check: every concern's count has reached its requirement. -/
def fulfilledB (strategy : List (Concern × Nat)) (f : Concern → Nat) : Bool :=
  strategy.all (fun p => p.2 ≤ f p.1)

def bumpFulfill (f : Concern → Nat) (c : Concern) : Concern → Nat :=
  fun c' => if c' = c then f c + 1 else f c'

/-- The body of one concern iteration for driver `d`: if the driver matches, bump the
concern's fulfillment and, when the new count is still within the requirement `n`,
push the driver. -/
def concernStep (m : Concern → Bool) (d : String) (st : SelState) (c : Concern) (n : Nat) :
    SelState :=
  if m c then
    { fulfill := bumpFulfill st.fulfill c
      selected := if st.fulfill c + 1 ≤ n then st.selected ++ [d] else st.selected }
  else st

/-- The inner `for (let concern of Object.keys(replication_strategy))` loop for one
driver: after each concern the fulfilled check runs, and a fulfilled strategy breaks
out (second component `true`). -/
def concernLoop (strategy : List (Concern × Nat)) (m : Concern → Bool) (d : String) :
    List (Concern × Nat) → SelState → SelState × Bool
  | [], st => (st, false)
  | (c, n) :: rest, st =>
      let st' := concernStep m d st c n
      if fulfilledB strategy st'.fulfill then (st', true)
      else concernLoop strategy m d rest st'

/-- The outer `for (let d of all_drivers)` loop: break as soon as the inner loop
reports the strategy fulfilled. -/
def driverLoop (strategy : List (Concern × Nat)) (classes : List (String × List String)) :
    List String → SelState → SelState × Bool
  | [], st => (st, false)
  | d :: ds, st =>
      match concernLoop strategy (driverMatches classes d) d strategy st with
      | (st', true) => (st', true)
      | (st', false) => driverLoop strategy classes ds st'

/-- `selectDrivers(replication_strategy, classes)`: run the loops over `all_drivers`;
throw `Unsatisfiable replication strategy` unless the fulfilled check fired. -/
def selectDrivers (strategy : List (Concern × Nat)) (classes : List (String × List String)) :
    Except String (List String) :=
  match driverLoop strategy classes (allDriversOf classes) ⟨fun _ => 0, []⟩ with
  | (st, true) => Except.ok st.selected
  | (_, false) => Except.error "Unsatisfiable replication strategy"

/-- The number of drivers in `sel` that match concern `c` (with multiplicity). -/
def countMatches (classes : List (String × List String)) (sel : List String) (c : Concern) :
    Nat :=
  sel.countP (fun d => driverMatches classes d c)

/-- The keys of a strategy are unique (always true of a JS object's `Object.keys`). -/
def KeysNodup (strategy : List (Concern × Nat)) : Prop :=
  (strategy.map Prod.fst).Nodup

instance (strategy : List (Concern × Nat)) : Decidable (KeysNodup strategy) :=
  inferInstanceAs (Decidable (strategy.map Prod.fst).Nodup)

/-- C2 counterexample: one driver `"d"` classified both `read_public` and
`read_local`, with strategy `{local: 1, public: 1}`: `selectDrivers` pushes `"d"`
once per newly-fulfilled concern and returns `["d", "d"]` — not a sublist of the
stable driver enumeration `["d"]` (a driver appears more than once). -/
theorem selectDrivers_duplicate_counterexample :
    selectDrivers [(Concern.loc, 1), (Concern.pub, 1)]
        [("read_public", ["d"]), ("read_local", ["d"])] = Except.ok ["d", "d"] ∧
    allDriversOf [("read_public", ["d"]), ("read_local", ["d"])] = ["d"] ∧
    ¬ List.Sublist ["d", "d"] ["d"] :=
  ⟨rfl, rfl, fun h => by have := h.length_le; simp at this⟩

/-- C9 counterexample: an empty strategy (no concerns) is trivially satisfiable —
its fulfilled check over no concerns holds vacuously — yet `selectDrivers` throws
`Unsatisfiable replication strategy`, because the fulfilled check only ever runs
inside the per-concern loop. -/
theorem selectDrivers_empty_strategy_counterexample :
    (([] : List (Concern × Nat)).all
        (fun p => p.2 ≤ countMatches [("read_public", ["d"])]
          (allDriversOf [("read_public", ["d"])]) p.1) = true) ∧
    selectDrivers [] [("read_public", ["d"])] = Except.error "Unsatisfiable replication strategy" :=
  ⟨rfl, rfl⟩


/-! ### Loop invariants for `selectDrivers` -/

theorem keysNodup_eq {strategy : List (Concern × Nat)} (h : KeysNodup strategy) {c : Concern}
    {n n' : Nat} (h1 : (c, n) ∈ strategy) (h2 : (c, n') ∈ strategy) : n = n' := by
  induction strategy with
  | nil => cases h1
  | cons p rest ih =>
      obtain ⟨hnotin, hrest⟩ := List.nodup_cons.mp h
      rcases List.mem_cons.mp h1 with he1 | hm1 <;> rcases List.mem_cons.mp h2 with he2 | hm2
      · exact (Prod.ext_iff.mp (he1.trans he2.symm)).2
      · exfalso
        apply hnotin
        have hc : c ∈ rest.map Prod.fst := List.mem_map_of_mem Prod.fst hm2
        rw [← he1]
        exact hc
      · exfalso
        apply hnotin
        have hc : c ∈ rest.map Prod.fst := List.mem_map_of_mem Prod.fst hm1
        rw [← he2]
        exact hc
      · exact ih hrest hm1 hm2

theorem countMatches_append (classes : List (String × List String)) (s₁ s₂ : List String)
    (c : Concern) :
    countMatches classes (s₁ ++ s₂) c = countMatches classes s₁ c + countMatches classes s₂ c := by
  simp [countMatches, List.countP_append]

/-- The lower-bound invariant: each concern's selected matches cover
`min(fulfillment, requirement)`. -/
def InvA (classes : List (String × List String)) (strategy : List (Concern × Nat))
    (st : SelState) : Prop :=
  ∀ c n, (c, n) ∈ strategy → min (st.fulfill c) n ≤ countMatches classes st.selected c

theorem concernStep_invA (classes : List (String × List String))
    (strategy : List (Concern × Nat)) (hn : KeysNodup strategy) (d : String) (st : SelState)
    (c₀ : Concern) (n₀ : Nat) (hp : (c₀, n₀) ∈ strategy) (hinv : InvA classes strategy st) :
    InvA classes strategy (concernStep (driverMatches classes d) d st c₀ n₀) := by
  intro c n hcn
  cases hm : driverMatches classes d c₀ with
  | false => simpa [concernStep, hm] using hinv c n hcn
  | true =>
      have hbase := hinv c n hcn
      have hstep : concernStep (driverMatches classes d) d st c₀ n₀ =
          { fulfill := bumpFulfill st.fulfill c₀
            selected := if st.fulfill c₀ + 1 ≤ n₀ then st.selected ++ [d] else st.selected } := by
        simp [concernStep, hm]
      rw [hstep]
      by_cases hc : c = c₀
      · subst hc
        have hnn : n = n₀ := keysNodup_eq hn hcn hp
        subst hnn
        have hbump : bumpFulfill st.fulfill c c = st.fulfill c + 1 := by simp [bumpFulfill]
        by_cases hpush : st.fulfill c + 1 ≤ n
        · have hcount : countMatches classes (st.selected ++ [d]) c =
              countMatches classes st.selected c + 1 := by
            rw [countMatches_append]
            simp [countMatches, hm]
          rw [if_pos hpush]
          show min (bumpFulfill st.fulfill c c) n ≤ countMatches classes (st.selected ++ [d]) c
          rw [hbump, hcount]
          omega
        · rw [if_neg hpush]
          show min (bumpFulfill st.fulfill c c) n ≤ countMatches classes st.selected c
          rw [hbump]
          omega
      · have hbump : bumpFulfill st.fulfill c₀ c = st.fulfill c := by simp [bumpFulfill, hc]
        have hcount : countMatches classes st.selected c ≤
            countMatches classes
              (if st.fulfill c₀ + 1 ≤ n₀ then st.selected ++ [d] else st.selected) c := by
          split
          · rw [countMatches_append]
            omega
          · omega
        show min (bumpFulfill st.fulfill c₀ c) n ≤
          countMatches classes (if st.fulfill c₀ + 1 ≤ n₀ then st.selected ++ [d] else st.selected) c
        rw [hbump]
        omega

theorem concernLoop_invA (classes : List (String × List String))
    (strategy : List (Concern × Nat)) (hn : KeysNodup strategy) (d : String) :
    ∀ (pairs : List (Concern × Nat)) (st : SelState), (∀ p ∈ pairs, p ∈ strategy) →
      InvA classes strategy st →
      InvA classes strategy (concernLoop strategy (driverMatches classes d) d pairs st).1 := by
  intro pairs
  induction pairs with
  | nil => intro st _ hinv; simpa [concernLoop] using hinv
  | cons p rest ih =>
      intro st hsub hinv
      obtain ⟨c₀, n₀⟩ := p
      have hst' := concernStep_invA classes strategy hn d st c₀ n₀
        (hsub _ (List.mem_cons_self _ _)) hinv
      simp only [concernLoop]
      split
      · exact hst'
      · exact ih _ (fun q hq => hsub q (List.mem_cons_of_mem _ hq)) hst'

theorem driverLoop_invA (classes : List (String × List String))
    (strategy : List (Concern × Nat)) (hn : KeysNodup strategy) :
    ∀ (ds : List String) (st : SelState), InvA classes strategy st →
      InvA classes strategy (driverLoop strategy classes ds st).1 := by
  intro ds
  induction ds with
  | nil => intro st hinv; simpa [driverLoop] using hinv
  | cons d ds ih =>
      intro st hinv
      have hcl := concernLoop_invA classes strategy hn d strategy st (fun p hp => hp) hinv
      simp only [driverLoop]
      split
      case _ st' heq => rw [heq] at hcl; exact hcl
      case _ st' heq =>
          rw [heq] at hcl
          exact ih _ hcl

theorem concernLoop_break_fulfilled (strategy : List (Concern × Nat)) (m : Concern → Bool)
    (d : String) :
    ∀ (pairs : List (Concern × Nat)) (st st' : SelState),
      concernLoop strategy m d pairs st = (st', true) →
      fulfilledB strategy st'.fulfill = true := by
  intro pairs
  induction pairs with
  | nil => intro st st' h; simp [concernLoop] at h
  | cons p rest ih =>
      intro st st' h
      obtain ⟨c, n⟩ := p
      simp only [concernLoop] at h
      split at h
      case _ hful =>
          injection h with h1 h2
          rw [← h1]
          exact hful
      case _ => exact ih _ _ h

theorem driverLoop_break_fulfilled (strategy : List (Concern × Nat))
    (classes : List (String × List String)) :
    ∀ (ds : List String) (st st' : SelState),
      driverLoop strategy classes ds st = (st', true) →
      fulfilledB strategy st'.fulfill = true := by
  intro ds
  induction ds with
  | nil => intro st st' h; simp [driverLoop] at h
  | cons d ds ih =>
      intro st st' h
      simp only [driverLoop] at h
      split at h
      case _ st₁ heq =>
          injection h with h1 h2
          rw [← h1]
          exact concernLoop_break_fulfilled strategy (driverMatches classes d) d _ _ _ heq
      case _ st₁ heq => exact ih _ _ h

theorem concernStep_selected_mem (m : Concern → Bool) (d : String) (st : SelState)
    (c : Concern) (n : Nat) :
    ∀ x ∈ (concernStep m d st c n).selected, x ∈ st.selected ∨ x = d := by
  intro x hx
  simp only [concernStep] at hx
  split at hx
  · split at hx
    · rcases List.mem_append.mp hx with h | h
      · exact Or.inl h
      · exact Or.inr (List.mem_singleton.mp h)
    · exact Or.inl hx
  · exact Or.inl hx

theorem concernLoop_selected_mem (strategy : List (Concern × Nat)) (m : Concern → Bool)
    (d : String) :
    ∀ (pairs : List (Concern × Nat)) (st : SelState),
      ∀ x ∈ (concernLoop strategy m d pairs st).1.selected, x ∈ st.selected ∨ x = d := by
  intro pairs
  induction pairs with
  | nil => intro st x hx; exact Or.inl (by simpa [concernLoop] using hx)
  | cons p rest ih =>
      intro st x hx
      obtain ⟨c, n⟩ := p
      simp only [concernLoop] at hx
      split at hx
      · exact concernStep_selected_mem m d st c n x hx
      · rcases ih _ x hx with h | h
        · exact concernStep_selected_mem m d st c n x h
        · exact Or.inr h

theorem driverLoop_selected_mem (strategy : List (Concern × Nat))
    (classes : List (String × List String)) :
    ∀ (ds : List String) (st : SelState),
      ∀ x ∈ (driverLoop strategy classes ds st).1.selected, x ∈ st.selected ∨ x ∈ ds := by
  intro ds
  induction ds with
  | nil => intro st x hx; exact Or.inl (by simpa [driverLoop] using hx)
  | cons d ds ih =>
      intro st x hx
      simp only [driverLoop] at hx
      split at hx
      case _ st₁ heq =>
          have hmem : x ∈ (concernLoop strategy (driverMatches classes d) d strategy st).1.selected := by
            rw [heq]
            exact hx
          rcases concernLoop_selected_mem strategy (driverMatches classes d) d strategy st x hmem with h | h
          · exact Or.inl h
          · exact Or.inr (h ▸ List.mem_cons_self _ _)
      case _ st₁ heq =>
          rcases ih _ x hx with h | h
          · have hmem : x ∈ (concernLoop strategy (driverMatches classes d) d strategy st).1.selected := by
              rw [heq]
              exact h
            rcases concernLoop_selected_mem strategy (driverMatches classes d) d strategy st x hmem with h' | h'
            · exact Or.inl h'
            · exact Or.inr (h' ▸ List.mem_cons_self _ _)
          · exact Or.inr (List.mem_cons_of_mem _ h)

theorem ite_one_le_ite_one {P Q : Prop} [Decidable P] [Decidable Q] (h : P → Q) :
    (if P then (1 : Nat) else 0) ≤ if Q then 1 else 0 := by
  by_cases hp : P
  · rw [if_pos hp, if_pos (h hp)]
  · rw [if_neg hp]
    exact Nat.zero_le _

theorem concernLoop_fulfill_le (strategy : List (Concern × Nat)) (m : Concern → Bool)
    (d : String) (c : Concern) :
    ∀ (pairs : List (Concern × Nat)), KeysNodup pairs → ∀ st : SelState,
      (concernLoop strategy m d pairs st).1.fulfill c ≤
        st.fulfill c + (if c ∈ pairs.map Prod.fst ∧ m c = true then 1 else 0) := by
  intro pairs
  induction pairs with
  | nil => intro _ st; simp [concernLoop]
  | cons p rest ih =>
      intro hn st
      obtain ⟨c₀, n₀⟩ := p
      obtain ⟨hnotin, hrest⟩ := List.nodup_cons.mp hn
      have hstep : (concernStep m d st c₀ n₀).fulfill c ≤
          st.fulfill c + (if c = c₀ ∧ m c = true then 1 else 0) := by
        cases hm : m c₀ with
        | false => simp [concernStep, hm]
        | true =>
            by_cases hc : c = c₀
            · subst hc
              simp [concernStep, hm, bumpFulfill]
            · simp [concernStep, hm, bumpFulfill, hc]
      have hkey : (if c = c₀ ∧ m c = true then (1 : Nat) else 0) ≤
          (if c ∈ ((c₀, n₀) :: rest).map Prod.fst ∧ m c = true then 1 else 0) := by
        refine ite_one_le_ite_one ?_
        rintro ⟨hceq, hmc⟩
        exact ⟨by simp [hceq], hmc⟩
      simp only [concernLoop]
      split
      case _ hful => exact hstep.trans (by omega)
      case _ hful =>
          refine (ih hrest _).trans ?_
          by_cases hc : c = c₀
          · subst hc
            have h0 : (if c ∈ rest.map Prod.fst ∧ m c = true then (1 : Nat) else 0) = 0 := by
              have hnotin2 : c ∉ rest.map Prod.fst := hnotin
              simp [hnotin2]
            rw [h0]
            have h1 := hstep
            have h2 := hkey
            omega
          · have hsame : (concernStep m d st c₀ n₀).fulfill c = st.fulfill c := by
              cases hm : m c₀ with
              | false => simp [concernStep, hm]
              | true => simp [concernStep, hm, bumpFulfill, hc]
            rw [hsame]
            have hmono : (if c ∈ rest.map Prod.fst ∧ m c = true then (1 : Nat) else 0) ≤
                (if c ∈ ((c₀, n₀) :: rest).map Prod.fst ∧ m c = true then 1 else 0) := by
              refine ite_one_le_ite_one ?_
              rintro ⟨hcr, hmc⟩
              exact ⟨by simp [hcr], hmc⟩
            omega

theorem driverLoop_fulfill_le (strategy : List (Concern × Nat))
    (classes : List (String × List String)) (hn : KeysNodup strategy) (c : Concern) :
    ∀ (ds : List String) (st : SelState),
      (driverLoop strategy classes ds st).1.fulfill c ≤
        st.fulfill c + ds.countP (fun d => driverMatches classes d c) := by
  intro ds
  induction ds with
  | nil => intro st; simp [driverLoop]
  | cons d ds ih =>
      intro st
      have hone : (concernLoop strategy (driverMatches classes d) d strategy st).1.fulfill c ≤
          st.fulfill c + (if driverMatches classes d c = true then 1 else 0) := by
        refine (concernLoop_fulfill_le strategy (driverMatches classes d) d c strategy hn st).trans ?_
        have : (if c ∈ strategy.map Prod.fst ∧ driverMatches classes d c = true then (1 : Nat) else 0) ≤
            (if driverMatches classes d c = true then 1 else 0) :=
          ite_one_le_ite_one (fun h => h.2)
        omega
      simp only [driverLoop]
      split
      case _ st₁ heq =>
          rw [heq] at hone
          have hone' : st₁.fulfill c ≤
              st.fulfill c + (if driverMatches classes d c = true then 1 else 0) := by
            simpa using hone
          rw [List.countP_cons]
          omega
      case _ st₁ heq =>
          rw [heq] at hone
          have hone' : st₁.fulfill c ≤
              st.fulfill c + (if driverMatches classes d c = true then 1 else 0) := by
            simpa using hone
          have h2 := ih st₁
          rw [List.countP_cons]
          omega

theorem concernLoop_nobreak_fulfill (strategy : List (Concern × Nat)) (m : Concern → Bool)
    (d : String) (c : Concern) :
    ∀ (pairs : List (Concern × Nat)), KeysNodup pairs → ∀ st st' : SelState,
      concernLoop strategy m d pairs st = (st', false) →
      (c ∈ pairs.map Prod.fst →
        st'.fulfill c = st.fulfill c + (if m c = true then 1 else 0)) ∧
      (c ∉ pairs.map Prod.fst → st'.fulfill c = st.fulfill c) := by
  intro pairs
  induction pairs with
  | nil =>
      intro _ st st' h
      simp only [concernLoop] at h
      injection h with h1 h2
      subst h1
      exact ⟨fun hc => by simp at hc, fun _ => rfl⟩
  | cons p rest ih =>
      intro hn st st' h
      obtain ⟨c₀, n₀⟩ := p
      obtain ⟨hnotin, hrest⟩ := List.nodup_cons.mp hn
      simp only [concernLoop] at h
      split at h
      case _ => exact absurd (congrArg Prod.snd h) (by simp)
      case _ =>
          obtain ⟨ihmem, ihnot⟩ := ih hrest _ _ h
          constructor
          · intro hc
            have hc' : c = c₀ ∨ c ∈ rest.map Prod.fst := by
              rw [List.map_cons] at hc
              exact List.mem_cons.mp hc
            rcases hc' with hceq | hcrest
            · subst hceq
              have hnotin2 : c ∉ rest.map Prod.fst := hnotin
              rw [ihnot hnotin2]
              cases hm : m c with
              | false => simp [concernStep, hm]
              | true => simp [concernStep, hm, bumpFulfill]
            · have hcne : c ≠ c₀ := by
                intro hceq
                subst hceq
                exact hnotin hcrest
              rw [ihmem hcrest]
              cases hm : m c₀ with
              | false => simp [concernStep, hm]
              | true => simp [concernStep, hm, bumpFulfill, hcne]
          · intro hc
            have hc0 : c ≠ c₀ := by
              intro hceq
              exact hc (by simp [hceq])
            have hcrest : c ∉ rest.map Prod.fst := by
              intro hcr
              exact hc (by simp [hcr])
            rw [ihnot hcrest]
            cases hm : m c₀ with
            | false => simp [concernStep, hm]
            | true => simp [concernStep, hm, bumpFulfill, hc0]

theorem driverLoop_nobreak_fulfill (strategy : List (Concern × Nat))
    (classes : List (String × List String)) (hn : KeysNodup strategy) (c : Concern)
    (hc : c ∈ strategy.map Prod.fst) :
    ∀ (ds : List String) (st st' : SelState),
      driverLoop strategy classes ds st = (st', false) →
      st'.fulfill c = st.fulfill c + ds.countP (fun d => driverMatches classes d c) := by
  intro ds
  induction ds with
  | nil =>
      intro st st' h
      simp only [driverLoop] at h
      injection h with h1 h2
      subst h1
      simp
  | cons d ds ih =>
      intro st st' h
      simp only [driverLoop] at h
      split at h
      case _ => exact absurd (congrArg Prod.snd h) (by simp)
      case _ st₁ heq =>
          have h1 := (concernLoop_nobreak_fulfill strategy (driverMatches classes d) d c
            strategy hn st st₁ heq).1 hc
          have h2 := ih st₁ st' h
          rw [h2, h1, List.countP_cons]
          by_cases hm : driverMatches classes d c = true
          · simp [hm]
            omega
          · simp [hm]

theorem concernLoop_nobreak_not_fulfilled (strategy : List (Concern × Nat)) (m : Concern → Bool)
    (d : String) :
    ∀ (pairs : List (Concern × Nat)) (st st' : SelState), pairs ≠ [] →
      concernLoop strategy m d pairs st = (st', false) →
      fulfilledB strategy st'.fulfill = false := by
  intro pairs
  induction pairs with
  | nil => intro st st' hne; exact absurd rfl hne
  | cons p rest ih =>
      intro st st' _ h
      obtain ⟨c₀, n₀⟩ := p
      simp only [concernLoop] at h
      split at h
      case _ => exact absurd (congrArg Prod.snd h) (by simp)
      case _ hful =>
          cases rest with
          | nil =>
              simp only [concernLoop] at h
              injection h with h1 h2
              subst h1
              exact Bool.not_eq_true _ ▸ (by simpa using hful)
          | cons q qs => exact ih _ _ (by simp) h

theorem driverLoop_nobreak_not_fulfilled (strategy : List (Concern × Nat))
    (classes : List (String × List String)) (hs : strategy ≠ []) :
    ∀ (ds : List String) (st st' : SelState), ds ≠ [] →
      driverLoop strategy classes ds st = (st', false) →
      fulfilledB strategy st'.fulfill = false := by
  intro ds
  induction ds with
  | nil => intro st st' hne; exact absurd rfl hne
  | cons d ds ih =>
      intro st st' _ h
      simp only [driverLoop] at h
      split at h
      case _ => exact absurd (congrArg Prod.snd h) (by simp)
      case _ st₁ heq =>
          cases ds with
          | nil =>
              simp only [driverLoop] at h
              injection h with h1 h2
              rw [← h1]
              exact concernLoop_nobreak_not_fulfilled strategy (driverMatches classes d) d
                strategy st st₁ hs heq
          | cons e es => exact ih _ _ (by simp) h

/-- C2 amended: when `selectDrivers(S, C)` returns a list `D` (keys of the JS strategy
object are unique), then for every concern `(c, n)` of `S` the number of entries of
`D` matching `c` — counted with multiplicity — is at least `n`, and every entry of `D`
is one of the stably enumerated available drivers.  (`D` need not be a sublist of that
enumeration: the code pushes a driver once per concern it newly fulfills, so a driver
can appear several times — see the counterexample.) -/
theorem selectDrivers_ok_fulfills_counts (strategy : List (Concern × Nat))
    (classes : List (String × List String)) (D : List String) (hn : KeysNodup strategy)
    (hok : selectDrivers strategy classes = Except.ok D) :
    (∀ c n, (c, n) ∈ strategy → n ≤ countMatches classes D c) ∧
    (∀ x ∈ D, x ∈ allDriversOf classes) := by
  unfold selectDrivers at hok
  split at hok
  case _ st heq =>
      injection hok with hD
      have hinit : InvA classes strategy ⟨fun _ => 0, []⟩ := by
        intro c n _
        simp [countMatches]
      constructor
      · intro c n hcn
        have hful := driverLoop_break_fulfilled strategy classes _ _ _ heq
        have hle : n ≤ st.fulfill c := by
          unfold fulfilledB at hful
          rw [List.all_eq_true] at hful
          exact of_decide_eq_true (hful (c, n) hcn)
        have hmin := driverLoop_invA classes strategy hn (allDriversOf classes)
          ⟨fun _ => 0, []⟩ hinit c n hcn
        rw [heq] at hmin
        have hmin' : min (st.fulfill c) n ≤ countMatches classes st.selected c := by
          simpa using hmin
        rw [← hD]
        omega
      · intro x hx
        have hmem := driverLoop_selected_mem strategy classes (allDriversOf classes)
          ⟨fun _ => 0, []⟩ x
        rw [heq] at hmem
        rcases hmem (by simpa [← hD] using hx) with h | h
        · simp at h
        · exact h
  case _ => simp at hok

/-- Witness for the C2 amended theorem at the classification
`{read_local: [A], write_local: [A], read_public: [B], write_public: [B]}` and
strategy `{local: 1, public: 1}`, where `selectDrivers` returns `["B", "A"]`. -/
theorem selectDrivers_ok_fulfills_counts_witness :
    1 ≤ countMatches
        [("read_local", ["A"]), ("write_local", ["A"]), ("read_public", ["B"]), ("write_public", ["B"])]
        ["B", "A"] Concern.loc ∧
    "B" ∈ allDriversOf
        [("read_local", ["A"]), ("write_local", ["A"]), ("read_public", ["B"]), ("write_public", ["B"])] :=
  ⟨(selectDrivers_ok_fulfills_counts [(Concern.loc, 1), (Concern.pub, 1)]
      [("read_local", ["A"]), ("write_local", ["A"]), ("read_public", ["B"]), ("write_public", ["B"])]
      ["B", "A"] (by decide) rfl).1 Concern.loc 1 (by decide),
   (selectDrivers_ok_fulfills_counts [(Concern.loc, 1), (Concern.pub, 1)]
      [("read_local", ["A"]), ("write_local", ["A"]), ("read_public", ["B"]), ("write_public", ["B"])]
      ["B", "A"] (by decide) rfl).2 "B" (by decide)⟩

/-- C9 amended: (i) if some concern of the strategy requires more replicas than there
are matching available drivers, `selectDrivers` throws `Unsatisfiable replication
strategy`; (ii) conversely, when the strategy is satisfiable it returns a driver
list — PROVIDED the strategy has at least one concern and at least one driver is
available: with no concerns, or no drivers, the fulfilled check never runs and the
code throws even though the strategy is trivially satisfiable (see the
counterexample). -/
theorem selectDrivers_throws_iff_unsatisfied (strategy : List (Concern × Nat))
    (classes : List (String × List String)) (hn : KeysNodup strategy) :
    (∀ c n, (c, n) ∈ strategy →
        countMatches classes (allDriversOf classes) c < n →
        selectDrivers strategy classes = Except.error "Unsatisfiable replication strategy") ∧
    (strategy ≠ [] → allDriversOf classes ≠ [] →
      (∀ c n, (c, n) ∈ strategy → n ≤ countMatches classes (allDriversOf classes) c) →
      ∃ D, selectDrivers strategy classes = Except.ok D) := by
  constructor
  · intro c n hcn hshort
    unfold selectDrivers
    split
    case _ st heq =>
        exfalso
        have hful := driverLoop_break_fulfilled strategy classes _ _ _ heq
        have hle : n ≤ st.fulfill c := by
          unfold fulfilledB at hful
          rw [List.all_eq_true] at hful
          exact of_decide_eq_true (hful (c, n) hcn)
        have hub := driverLoop_fulfill_le strategy classes hn c (allDriversOf classes)
          ⟨fun _ => 0, []⟩
        rw [heq] at hub
        have hub' : st.fulfill c ≤
            (allDriversOf classes).countP (fun d => driverMatches classes d c) := by
          simpa using hub
        have hshort' : (allDriversOf classes).countP (fun d => driverMatches classes d c) < n := by
          simpa [countMatches] using hshort
        omega
    case _ => rfl
  · intro hs hd hsat
    unfold selectDrivers
    split
    case _ st heq => exact ⟨st.selected, rfl⟩
    case _ st heq =>
        exfalso
        have hnf := driverLoop_nobreak_not_fulfilled strategy classes hs
          (allDriversOf classes) ⟨fun _ => 0, []⟩ st hd heq
        have hnall : ¬ ∀ p ∈ strategy, p.2 ≤ st.fulfill p.1 := by
          intro hall
          have : fulfilledB strategy st.fulfill = true := by
            unfold fulfilledB
            rw [List.all_eq_true]
            intro p hp
            exact decide_eq_true (hall p hp)
          rw [this] at hnf
          cases hnf
        push_neg at hnall
        obtain ⟨p, hp, hlt⟩ := hnall
        rcases p with ⟨pc, pn⟩
        have hlt' : st.fulfill pc < pn := by
          have := Nat.lt_of_not_le (by simpa using hlt)
          simpa using this
        have hkey : pc ∈ strategy.map Prod.fst := List.mem_map_of_mem Prod.fst hp
        have hexact := driverLoop_nobreak_fulfill strategy classes hn pc hkey
          (allDriversOf classes) ⟨fun _ => 0, []⟩ st heq
        have hexact' : st.fulfill pc =
            (allDriversOf classes).countP (fun d => driverMatches classes d pc) := by
          simpa using hexact
        have hsatp := hsat pc pn hp
        have hsatp' : pn ≤ (allDriversOf classes).countP (fun d => driverMatches classes d pc) := by
          simpa [countMatches] using hsatp
        omega

/-- Witness for the C9 amended theorem: strategy `{local: 2}` over a lone `read_local`
driver throws, and strategy `{local: 1}` over the same classification succeeds. -/
theorem selectDrivers_throws_iff_unsatisfied_witness :
    selectDrivers [(Concern.loc, 2)] [("read_local", ["A"])] =
        Except.error "Unsatisfiable replication strategy" ∧
    ∃ D, selectDrivers [(Concern.loc, 1)] [("read_local", ["A"])] = Except.ok D :=
  ⟨(selectDrivers_throws_iff_unsatisfied [(Concern.loc, 2)] [("read_local", ["A"])]
      (by decide)).1 Concern.loc 2 (by decide) (by decide),
   (selectDrivers_throws_iff_unsatisfied [(Concern.loc, 1)] [("read_local", ["A"])]
      (by decide)).2 (by decide) (by decide) (by
        intro c n h
        have h' := List.mem_singleton.mp h
        rw [Prod.mk.injEq] at h'
        obtain ⟨h1, h2⟩ := h'
        subst h1
        subst h2
        decide)⟩

/-! ### `datastoreMount` and the partial-create-failure flag (src/src/datastore.js)

Session tokens are modelled by their decoded payloads (`jsontokens.decodeToken` is
an external collaborator, so a token *is* its payload here); `session.app_domain`
URL parsing is likewise external, so the parsed host is carried as a field.
`getGaiaLocalData` and `getSessionDatastoreID` are imported by datastore.js from a
metadata module revision that is absent from the sources; they are modelled from
the spec below.  JS truthiness of optional strings: absent or empty is falsy. -/

def jsTruthyStr (o : Option String) : Bool :=
  match o with
  | none => false
  | some s => s != ""

/-- Base64 of a byte list, as `Buffer.toString('base64')` renders it. -/
def base64Chars : List Char :=
  "ABCDEFGHIJKLMNOPQRSTUVWXYZabcdefghijklmnopqrstuvwxyz0123456789+/".data

def b64c (n : Nat) : Char := base64Chars.getD n 'A'

def base64Encode : List Nat → List Char
  | [] => []
  | [a] => [b64c (a / 4), b64c (a % 4 * 16), '=', '=']
  | [a, b] => [b64c (a / 4), b64c (a % 4 * 16 + b / 16), b64c (b % 16 * 4), '=']
  | a :: b :: c :: rest =>
      [b64c (a / 4), b64c (a % 4 * 16 + b / 16), b64c (b % 16 * 4 + c / 64), b64c (c % 64)] ++
        base64Encode rest

/-- The UTF-8 bytes of a string (what `Buffer.from(str)` holds). -/
def utf8Bytes (s : String) : List Nat := s.toUTF8.toList.map UInt8.toNat

/-- `hashRawData(buf)` from src/src/util.js: plain SHA-256, hex-encoded. -/
def hashRawData (payload_buffer : List Nat) : String := sha256hex payload_buffer

/-- A `{device_id, public_key}` entry of `session.app_public_keys`. -/
structure AppPubkey where
  device_id : String
  public_key : String

/-- A decoded session-token payload (the fields datastore.js reads).
`app_domain_host` is `urlparse.parse(session.app_domain).host`, precomputed because
URL parsing of the app domain is the external `url` library's job. -/
structure Session where
  blockchain_id : Option String
  app_user_id : Option String
  device_id : Option String
  api_endpoint : String
  app_public_keys : Option (List AppPubkey)
  app_domain_host : String

/-- `getSessionAppName(sessionToken)` from src/src/metadata.js: the parsed host of
the session's `app_domain`. -/
def getSessionAppName (session : Session) : String := session.app_domain_host

/-- `getSessionBlockchainID(sessionToken)` from src/src/metadata.js. -/
def getSessionBlockchainID (session : Session) : Option String := session.blockchain_id

/-- Modelled from the spec: `getSessionDatastoreID` (imported from a metadata module
revision absent from the sources) — the datastore ID the session carries for
single-reader mode, i.e. the session's `app_user_id` ("derived from sessionToken when
the session's `app_user_id` equals the datastore id"). -/
def getSessionDatastoreID (session : Session) : Option String := session.app_user_id

/-- `getBlockchainIDFromSessionOrDefault(session)` from src/src/metadata.js: the
session's blockchain ID, or `hashRawData(base64(app_user_id))` when absent
(asserting `app_user_id` is present). -/
def getBlockchainIDFromSessionOrDefault (session : Session) : Except String String :=
  if jsTruthyStr session.blockchain_id then Except.ok (session.blockchain_id.getD "")
  else if jsTruthyStr session.app_user_id then
    Except.ok (hashRawData ((base64Encode (utf8Bytes (session.app_user_id.getD ""))).map Char.toNat))
  else Except.error "Missing app_user_id"

/-- A cached mount context (the `ctx` object `datastoreMount` builds and caches). -/
structure Datastore where
  dstype : String
  pubkey : String
  drivers : List String
  device_ids : List String
  root_uuid : String

structure MountCtx where
  scheme : String
  host : String
  port : Option String
  blockchain_id : Option String
  app_name : Option String
  datastore_id : Option String
  app_public_keys : Option (List AppPubkey)
  device_id : Option String
  datastore : Option Datastore
  privkey_hex : Option String
  created : Bool

/-- The per-user durable blob read by `getUserData()` (the fields used here). -/
structure UserData where
  coreSessionToken : Option Session
  appPrivateKey : Option String
  datastore_contexts : List (String × MountCtx)

/-- Modelled from the spec: the state `getGaiaLocalData` returns (the function is
imported from a metadata revision absent from the sources) — the persistent
local-storage blob holding `partial_create_failures: {<blockchain_id>/<app_name>: true}`. -/
structure GaiaState where
  partial_create_failures : List (String × Bool)

/-- `getCachedMountContext(blockchain_id, full_app_name)` from src/src/metadata.js:
asserts both keys truthy, then looks `<blockchain_id>/<full_app_name>` up in the
cached contexts (absent ⇒ null). -/
def getCachedMountContext (userData : UserData) (bid : Option String) (app : String) :
    Except String (Option MountCtx) :=
  if ¬ jsTruthyStr bid then Except.error "No blockchain ID given"
  else if app = "" then Except.error "No app name given"
  else Except.ok (userData.datastore_contexts.lookup ((bid.getD "") ++ "/" ++ app))

/-- `datastoreCreateIsPartialFailure(sessionToken)` (src/src/datastore.js lines
212-229): true exactly when the persistent flag is set under
`<blockchain_id>/<session app name>`. -/
def datastoreCreateIsPartialFailure (gaia : GaiaState) (session : Session) :
    Except String Bool :=
  let session_app_name := getSessionAppName session
  match getBlockchainIDFromSessionOrDefault session with
  | Except.error e => Except.error e
  | Except.ok blockchain_id =>
      let marker := blockchain_id ++ "/" ++ session_app_name
      match gaia.partial_create_failures.lookup marker with
      | some true => Except.ok true
      | _ => Except.ok false

/-- `url.parse` for the `scheme://host:port[/...]` shapes `datastoreMount` feeds it
(the `url` module is external; only these shapes are reachable here). -/
structure UrlInfo where
  protocol : String
  host : String
  hostname : String
  port : Option String

def jsUrlParse (s : String) : UrlInfo :=
  match s.splitOn "://" with
  | [] => ⟨"", "", "", none⟩
  | [_] => ⟨"", "", "", none⟩
  | scheme :: rest =>
      let after := String.intercalate "://" rest
      let hostport := (after.splitOn "/").headD ""
      match hostport.splitOn ":" with
      | [] => ⟨scheme ++ ":", hostport, hostport, none⟩
      | [h] => ⟨scheme ++ ":", hostport, h, none⟩
      | h :: ps => ⟨scheme ++ ":", hostport, h, some (String.intercalate ":" ps)⟩

/-- What `datastoreRequestPathInfo` returns. -/
structure PathInfo where
  store_id : String
  qs : String
  host : String
  port : Option String

/-- `datastoreRequestPathInfo(dsctx)` (src/src/datastore.js lines 411-450):
single-reader mode when the context carries a datastore ID (CSV device ids and
pubkeys), multi-reader mode otherwise (`blockchain_id` query). -/
def datastoreRequestPathInfo (dsctx : MountCtx) : Except String PathInfo :=
  if ¬ ((jsTruthyStr dsctx.blockchain_id && jsTruthyStr dsctx.app_name) ||
        jsTruthyStr dsctx.datastore_id) then
    Except.error "assert: need blockchain_id/app_name or datastore_id"
  else if jsTruthyStr dsctx.datastore_id then
    match dsctx.app_public_keys with
    | none => Except.error "TypeError: app_public_keys is not iterable"
    | some apks =>
        Except.ok ⟨dsctx.datastore_id.getD "",
          "device_ids=" ++ String.intercalate "," (apks.map (fun a => a.device_id)) ++
            "&device_pubkeys=" ++ String.intercalate "," (apks.map (fun a => a.public_key)),
          dsctx.host, dsctx.port⟩
  else
    Except.ok ⟨dsctx.app_name.getD "",
      "blockchain_id=" ++ dsctx.blockchain_id.getD "", dsctx.host, dsctx.port⟩

/-- How the mount request authenticates. -/
inductive AuthHeader where
  | bearerToken
  | bearerPassword (pw : String)

/-- The options handed to `httpRequest` by `datastoreMount`. -/
structure ReqOptions where
  method : String
  host : String
  port : Option String
  path : String
  auth : AuthHeader

/-- How `datastoreMount` resolves.  `nullDatastore` and `cached` resolve without any
gateway request; `request` is the single point at which the model issues the
`GET /v1/stores/...` gateway request (the continuation handles the response). -/
inductive MountResult where
  | nullDatastore
  | cached (ctx : MountCtx)
  | request (options : ReqOptions) (ctx : MountCtx)

/-- `sessionToken = opts.sessionToken || getSessionToken()` with `getSessionToken`'s
assertion that a token is stored. -/
def resolveSessionToken (userData : UserData) (opts_sessionToken : Option Session) :
    Except String Session :=
  match opts_sessionToken with
  | some s => Except.ok s
  | none =>
      match userData.coreSessionToken with
      | some s => Except.ok s
      | none => Except.error "getSessionToken: no coreSessionToken"

/-- The tail of `datastoreMount` past the partial-failure check: the cache lookup and,
on a miss, the construction of the mount context and of the gateway request
(src/src/datastore.js lines 534-631).  `gp` is the external `getPubkeyHex`. -/
def datastoreMountRest (gp : String → String) (userData : UserData)
    (opts_appName opts_deviceID : Option String) (opts_dataPubkeys : Option (List AppPubkey))
    (opts_apiPassword : Option String) (no_cache : Bool) (session : Session)
    (blockchain_id : Option String) (datastore_privkey_hex : Option String) :
    Except String MountResult := do
  let session_datastore_id := getSessionDatastoreID session
  let session_app_name := getSessionAppName session
  let cached ←
    if no_cache then pure (none : Option MountCtx)
    else
      getCachedMountContext userData
        (if jsTruthyStr blockchain_id then blockchain_id else session_datastore_id)
        session_app_name
  match cached with
  | some ds => return MountResult.cached ds
  | none => do
    let this_device_id ←
      if jsTruthyStr opts_deviceID then pure (opts_deviceID.getD "")
      else if jsTruthyStr session.device_id then pure (session.device_id.getD "")
      else throw "assert: no device_id"
    let app_public_keys :=
      if opts_dataPubkeys.isSome then opts_dataPubkeys else session.app_public_keys
    let app_name ←
      if ¬ jsTruthyStr blockchain_id then
        if jsTruthyStr session_datastore_id then pure opts_appName
        else throw "No datastore ID in session"
      else
        let an := if jsTruthyStr opts_appName then opts_appName else some session_app_name
        if jsTruthyStr an then pure an else throw "Invalid session token"
    if ¬ ((jsTruthyStr blockchain_id && jsTruthyStr app_name) ||
          jsTruthyStr session_datastore_id) then
      throw "Need either blockchain_id/app_name or datastore_id"
    let api_endpoint :=
      if (session.api_endpoint.splitOn "://").length > 1 then session.api_endpoint
      else
        let withHttps := "https://" ++ session.api_endpoint
        if (jsUrlParse withHttps).hostname = "localhost" then "http://" ++ session.api_endpoint
        else withHttps
    let urlinfo := jsUrlParse api_endpoint
    let ctx : MountCtx := {
      scheme := (urlinfo.protocol.splitOn ":").headD ""
      host := urlinfo.hostname
      port := urlinfo.port
      blockchain_id := blockchain_id
      app_name := app_name
      datastore_id := session_datastore_id
      app_public_keys := app_public_keys
      device_id := some this_device_id
      datastore := none
      privkey_hex := if ¬ jsTruthyStr blockchain_id then datastore_privkey_hex else none
      created := false }
    let path_info ← datastoreRequestPathInfo ctx
    if path_info.store_id = "" then throw "BUG: no store ID deduced"
    let base : ReqOptions := {
      method := "GET"
      host := path_info.host
      port := path_info.port
      path := "/v1/stores/" ++ path_info.store_id ++ "?" ++ path_info.qs
      auth := AuthHeader.bearerToken }
    let options :=
      if jsTruthyStr opts_apiPassword && jsTruthyStr datastore_privkey_hex then
        { base with
          auth := AuthHeader.bearerPassword (opts_apiPassword.getD "")
          path := base.path ++ "&datastore_pubkey=" ++ gp (datastore_privkey_hex.getD "") }
      else base
    return MountResult.request options ctx

/-- The options object `datastoreMount` receives. -/
structure MountOpts where
  sessionToken : Option Session
  blockchainID : Option String
  appName : Option String
  deviceID : Option String
  dataPubkeys : Option (List AppPubkey)
  appPrivateKey : Option String
  apiPassword : Option String
  noCachedMounts : Bool

/-- `datastoreMount(opts)` (src/src/datastore.js lines 489-662), up to the issuing of
its single gateway request: resolve the session token, drop `blockchain_id` when it
is the session's own, require an app private key, then — BEFORE the cache lookup and
before any request — resolve to null if the partial-create-failure flag is set;
otherwise serve from cache or build the `GET /v1/stores/...` request. -/
def datastoreMount (gp : String → String) (userData : UserData) (gaia : GaiaState)
    (opts : MountOpts) : Except String MountResult :=
  match resolveSessionToken userData opts.sessionToken with
  | Except.error e => Except.error e
  | Except.ok session =>
      let session_blockchain_id := getSessionBlockchainID session
      let blockchain_id : Option String :=
        if session_blockchain_id == opts.blockchainID then none else opts.blockchainID
      let datastore_privkey_hex : Option String :=
        if jsTruthyStr userData.appPrivateKey then userData.appPrivateKey
        else opts.appPrivateKey
      if ¬ jsTruthyStr datastore_privkey_hex then
        Except.error "assert: no app private key"
      else
        match datastoreCreateIsPartialFailure gaia session with
        | Except.error e => Except.error e
        | Except.ok true => Except.ok MountResult.nullDatastore
        | Except.ok false =>
            datastoreMountRest gp userData opts.appName opts.deviceID opts.dataPubkeys
              opts.apiPassword opts.noCachedMounts session blockchain_id
              datastore_privkey_hex

/-- C7: whenever the persistent partial-create-failure flag is set for the session's
`(blockchain id, app name)` — i.e. `datastoreCreateIsPartialFailure` reports true —
`datastoreMount` resolves to null (`MountResult.nullDatastore`), the one outcome that
issues no gateway request (requests arise only through `MountResult.request`). -/
theorem datastoreMount_partialFailure_resolves_null (gp : String → String)
    (userData : UserData) (gaia : GaiaState) (opts : MountOpts) (sess : Session)
    (htok : resolveSessionToken userData opts.sessionToken = Except.ok sess)
    (hpriv : jsTruthyStr (if jsTruthyStr userData.appPrivateKey then userData.appPrivateKey
      else opts.appPrivateKey) = true)
    (hflag : datastoreCreateIsPartialFailure gaia sess = Except.ok true) :
    datastoreMount gp userData gaia opts = Except.ok MountResult.nullDatastore := by
  unfold datastoreMount
  rw [htok]
  simp only [hpriv, hflag]
  simp

/-- Witness for C7 at a concrete session, store and flag state. -/
theorem datastoreMount_partialFailure_resolves_null_witness :
    datastoreMount id
      ⟨none, some "aa", []⟩
      ⟨[("alice.id/app.com", true)]⟩
      ⟨some ⟨some "alice.id", some "DSID", some "dev1", "localhost:6270", some [], "app.com"⟩,
        none, none, none, none, none, none, false⟩ =
      Except.ok MountResult.nullDatastore :=
  datastoreMount_partialFailure_resolves_null id
    ⟨none, some "aa", []⟩
    ⟨[("alice.id/app.com", true)]⟩
    ⟨some ⟨some "alice.id", some "DSID", some "dev1", "localhost:6270", some [], "app.com"⟩,
      none, none, none, none, none, none, false⟩
    ⟨some "alice.id", some "DSID", some "dev1", "localhost:6270", some [], "app.com"⟩
    rfl (by decide) rfl

end BlockstackStorage
